import Mathlib

/-!
Shallow embedding of the rejit front-end (src/parse.c and src/match.c) in Lean 4.

Runes are modelled as `Char`; a C rune string is a `List Char`, and reads at
or past the end of the list yield the NUL terminator, exactly as reads of a
NUL-terminated C buffer do.  Pointers into the token and instruction arrays
are modelled as indices (`Nat` inside the embedding, `Int` where the C code
stores them in `long`/`intptr_t` fields with `-1`/`0` sentinels).  Heap
string payloads (`IWORD` text, expanded `SET` enumerations), which the C code
stashes behind `intptr_t value` pointers, are modelled by a separate `sval`
field holding the rune list.  Allocation failure (`RJ_PE_MEM`) cannot occur
in the embedding.  Undefined behaviour that the C code can reach (stack
underflow in `build_suffix_pipe_list`, `abort()` inside `rejit_match_len`,
the `assert` in the pipe-drain loop of `parse`) is modelled by the dedicated
error kind `CRASH`, so that a pattern on which the C program would crash is
never counted as accepted.

The token-kind and instruction-kind enumerations live in rejit.h, which is
not part of the two sources; they are modelled as inductive types, and the
enum arithmetic of parse.c (`st.kind - RJ_TSTAR + RJ_ISTAR`,
`RJ_IMSTAR - RJ_ISTAR`, `RJ_IEND - (RJ_TDOLLAR - t.kind)`) is modelled by
the explicit maps `sufToInstr`, `toMinimal` and the `TCARET`/`TDOLLAR`
branch, following the correspondence the spec's tables give.
-/

namespace Rejit

abbrev Rune := Char

/-- NUL terminator of C rune strings. -/
def NUL : Rune := Char.ofNat 0

/-- Read `rstr[i]`: reads at or past the end of the buffer yield NUL. -/
def getR (s : List Rune) (i : Nat) : Rune := s.getD i NUL

/-- Opening brace rune. -/
def lbraceC : Rune := Char.ofNat 123

/-- Closing brace rune. -/
def rbraceC : Rune := Char.ofNat 125

/-- Parse error kinds (`rejit_parse_error.kind`).  `CRASH` is not a C enum
value: it marks executions on which the C program has undefined behaviour or
aborts, see the module comment. -/
inductive PEKind where
  | NONE | MEM | UBOUND | SYNTAX | OVFLOW | INT | RANGE | LBVAR | CRASH
deriving DecidableEq, Repr

/-- `rejit_parse_error`: error kind plus rune offset into the pattern. -/
structure PErr where
  kind : PEKind
  pos : Nat
deriving DecidableEq, Repr

/-- Token kinds (`rejit_token_kind`).  The `RJ_TSUF` sentinel is modelled by
the predicate `isSufKind` instead of an extra constructor. -/
inductive TKind where
  | TWORD | TCARET | TDOLLAR | TDOT | TLP | TRP | TSET | TMS | TBACK
  | TP | TSTAR | TPLUS | TQ | TREP
deriving DecidableEq, Repr

/-- `t.kind > RJ_TSUF`: the suffix (quantifier) band. -/
def isSufKind : TKind → Bool
  | .TSTAR | .TPLUS | .TQ | .TREP => true
  | _ => false

/-- `rejit_token`: kind, rune offset of the token's first rune, rune length. -/
structure Token where
  kind : TKind
  pos : Nat
  len : Nat
deriving DecidableEq, Repr

/-- Instruction kinds (`rejit_instr_kind`).  `INULL` is first so that a
zero-initialised (calloc'd) instruction slot reads as the terminator, as in C. -/
inductive IKind where
  | INULL
  | IWORD | ISTAR | IPLUS | IOPT | IREP | IMSTAR | IMPLUS | IMREP
  | IDOT | ISET | INSET | IUSET
  | IGROUP | ICGROUP | IOR
  | ILAHEAD | INLAHEAD | ILBEHIND | INLBEHIND
  | IBEGIN | IEND | IBACK
  | ISKIP | IARG | IVARG
deriving DecidableEq, Repr

/-- `rejit_instruction`.  `value`/`value2` hold numeric payloads and
instruction-array indices (C stores pointers there); `sval` holds the heap
string payload of `IWORD`/`ISET`/`INSET` (C stores a `char*` in `value`).
Defaults model calloc zero-initialisation.  The `len_from` back-pointer is
omitted: it is only ever written, never read, by the embedded code. -/
structure Instr where
  kind : IKind := .INULL
  value : Int := 0
  value2 : Int := 0
  len : Int := 0
  sval : List Rune := []
deriving DecidableEq, Repr

/-- `isdigitrune` restricted to ASCII digits, which is all the parser uses. -/
def isDigitRune (c : Rune) : Bool := decide ('0' ≤ c) && decide (c ≤ '9')

/-- The shorthand-class letters handled by the tokenizer's backslash case. -/
def isClassRune (c : Rune) : Bool :=
  c = 's' || c = 'S' || c = 'w' || c = 'W' || c = 'd' || c = 'D'

/-- ASCII `isupper`. -/
def chIsUpper (c : Rune) : Bool := decide ('A' ≤ c) && decide (c ≤ 'Z')

/-- ASCII `tolower`. -/
def chToLower (c : Rune) : Rune :=
  if chIsUpper c then Char.ofNat (c.toNat + 32) else c

/-- Single-rune meta tokens of the tokenizer's switch; everything else is a
literal `TWORD` rune. -/
def metaKind (c : Rune) : TKind :=
  if c = '+' then .TPLUS
  else if c = '*' then .TSTAR
  else if c = '?' then .TQ
  else if c = '^' then .TCARET
  else if c = '$' then .TDOLLAR
  else if c = '.' then .TDOT
  else if c = '|' then .TP
  else if c = '(' then .TLP
  else if c = ')' then .TRP
  else .TWORD

/-- Scan for the closing rune of a `[...]` or brace repetition token:
`while (rstr[len] && rstr[len] != close) ++len;` followed by `++len`.
Returns the token length including the closer, or `none` when the string
ends first. -/
def scanClose (s : List Rune) (base : Nat) (close : Rune) : Nat → Nat → Option Nat
  | 0, _ => none
  | fuel+1, len =>
    let c := getR s (base + len)
    if c = NUL then none
    else if c = close then some (len + 1)
    else scanClose s base close fuel (len + 1)

/-- Append a token, merging successive `TWORD` tokens by extending the
previous token's length by one (`++PREV.len`).  The accumulator is kept in
reverse order. -/
def appendTok (acc : List Token) (t : Token) : List Token :=
  match acc with
  | prev :: rest =>
    if t.kind = .TWORD && prev.kind = .TWORD then
      { prev with len := prev.len + 1 } :: rest
    else t :: acc
  | [] => [t]

/-- Main tokenizer loop of `rejit_tokenize`.  `p` is the current rune offset,
`escaped` the one-shot escape flag, `acc` the reversed token list. -/
def tokLoop (s : List Rune) : Nat → Nat → Bool → List Token → Except PErr (List Token)
  | 0, _, _, acc => .ok acc.reverse
  | fuel+1, p, escaped, acc =>
    let c := getR s p
    if c = NUL then .ok acc.reverse
    else if escaped then
      tokLoop s fuel (p + 1) false (appendTok acc ⟨.TWORD, p, 1⟩)
    else if c = '[' then
      let base := if getR s (p + 1) = '^' then p + 1 else p
      match scanClose s base ']' (s.length + 1) 1 with
      | none => .error ⟨.UBOUND, base⟩
      | some l => tokLoop s fuel (base + l) false (appendTok acc ⟨.TSET, base, l⟩)
    else if c = lbraceC then
      match scanClose s p rbraceC (s.length + 1) 1 with
      | none => .error ⟨.UBOUND, p⟩
      | some l => tokLoop s fuel (p + l) false (appendTok acc ⟨.TREP, p, l⟩)
    else if c = '\\' then
      let n := getR s (p + 1)
      if isDigitRune n then
        tokLoop s fuel (p + 2) false (appendTok acc ⟨.TBACK, p, 2⟩)
      else if isClassRune n then
        tokLoop s fuel (p + 2) false (appendTok acc ⟨.TMS, p, 2⟩)
      else
        tokLoop s fuel (p + 1) true (appendTok acc ⟨.TWORD, p, 1⟩)
    else
      tokLoop s fuel (p + 1) false (appendTok acc ⟨metaKind c, p, 1⟩)

/-- `rejit_tokenize` (src/parse.c). -/
def rejit_tokenize (s : List Rune) : Except PErr (List Token) :=
  tokLoop s (s.length + 1) 0 false []

/-- Fixed parser stack bound (`MAXSTACK`). -/
def MAXSTACK : Nat := 256

/-- A pipe record of `build_suffix_pipe_list`: `mid` is the token index of
the first token of the right arm, `pend` (`end` in C) the token index that
closed it, both `-1` while unset. -/
structure Pipe where
  mid : Int := -1
  pend : Int := -1
deriving DecidableEq, Repr

/-- Output of `build_suffix_pipe_list`: the two parallel index tables. -/
structure BspOut where
  suffixes : List Int
  pipes : List Pipe
deriving DecidableEq, Repr

/-- Read a token with the C out-of-range behaviour left unspecified; the
default is only reachable on indices the C code never produces. -/
def getT (ts : List Token) (i : Nat) : Token := ts.getD i ⟨.TWORD, 0, 0⟩

/-- Pop a `size_t` stack.  Popping an empty stack is undefined behaviour in
the C code (`st.stack[--st.len]` underflows); the junk value 0 stands in for
the garbage read. -/
def popJ (st : List Nat) : Nat × List Nat :=
  match st with
  | [] => (0, [])
  | x :: rest => (x, rest)

/-- Loop of `build_suffix_pipe_list`: walks the tokens with a group stack
`st` (indices of `TLP` tokens) and a pipe stack `pst` (pipe-slot indices).
`prev` is the index of the latest quantifiable token, `-1` when cleared. -/
def bspLoop (toks : List Token) :
    Nat → Nat → List Int → List Pipe → List Nat → List Nat → Int → Except PErr BspOut
  | 0, _, suffixes, pipes, _, _, _ => .ok ⟨suffixes, pipes⟩
  | fuel+1, i, suffixes, pipes, st, pst, prev =>
    if i < toks.length then
      let t := getT toks i
      if t.kind = .TLP then
        if st.length + 1 ≥ MAXSTACK then .error ⟨.OVFLOW, 0⟩
        else bspLoop toks fuel (i + 1) suffixes pipes (i :: st) pst (-1)
      else if t.kind = .TRP then
        let (pv, st') := popJ st
        match pst with
        | q :: pst' =>
          bspLoop toks fuel (i + 1) suffixes
            (pipes.set q { pipes.getD q {} with pend := (i : Int) }) st' pst' (pv : Int)
        | [] => bspLoop toks fuel (i + 1) suffixes pipes st' [] (pv : Int)
      else if isSufKind t.kind then
        if prev = -1 then
          if t.kind = .TQ then bspLoop toks fuel (i + 1) suffixes pipes st pst prev
          else .error ⟨.SYNTAX, t.pos⟩
        else
          bspLoop toks fuel (i + 1) (suffixes.set prev.toNat (i : Int)) pipes st pst (-1)
      else if t.kind = .TP then
        if i + 1 = toks.length then .error ⟨.SYNTAX, t.pos⟩
        else
          let pp := match st with | [] => 0 | g :: _ => g + 1
          let pipes' := pipes.set pp { pipes.getD pp {} with mid := ((i : Int) + 1) }
          if pst.length + 1 ≥ MAXSTACK then .error ⟨.OVFLOW, 0⟩
          else bspLoop toks fuel (i + 1) suffixes pipes' st (pp :: pst) (-1)
      else
        bspLoop toks fuel (i + 1) suffixes pipes st pst (i : Int)
    else .ok ⟨suffixes, pipes⟩

/-- `build_suffix_pipe_list` (src/parse.c).  Token positions are already rune
offsets, so the `rstr` parameter of the C function is not needed. -/
def build_suffix_pipe_list (toks : List Token) : Except PErr BspOut :=
  bspLoop toks (toks.length + 1) 0
    (List.replicate toks.length (-1)) (List.replicate toks.length {}) [] [] (-1)

/-- First pass of `expand_set`: sizes the output and reports inverted ranges.
Faithful to the source, the `escaped` flag is set by a backslash and never
reset, and its final value is returned because the C code reuses the same
variable in the second pass. -/
def esCount (s : List Rune) (base len : Nat) : Nat → Nat → Bool → Except PErr Bool
  | 0, _, esc => .ok esc
  | fuel+1, i, esc =>
    if i < len then
      let c := getR s (base + i)
      if esc then esCount s base len fuel (i + 1) esc
      else if c = '\\' then esCount s base len fuel (i + 1) true
      else if i ≠ 0 && c = '-' && i + 1 < len then
        let b := getR s (base + i - 1)
        let e := getR s (base + i + 1)
        if b > e then .error ⟨.RANGE, base + i⟩
        else esCount s base len fuel (i + 2) esc
      else esCount s base len fuel (i + 1) esc
    else .ok esc

/-- The runes `b+1, …, e` emitted by the range branch
(`for (++b; b<=e; ++b) *p++ = b;`); the range start itself was emitted by
the previous iteration. -/
def rangeRunes (b e : Rune) : List Rune :=
  (List.range (e.toNat - b.toNat)).map (fun k => Char.ofNat (b.toNat + 1 + k))

/-- Second pass of `expand_set`: writes the enumeration.  Faithful to the
source, it starts with the `escaped` value left over from the first pass and
never resets it. -/
def esWrite (s : List Rune) (base len : Nat) : Nat → Nat → Bool → List Rune
  | 0, _, _ => []
  | fuel+1, i, esc =>
    if i < len then
      let c := getR s (base + i)
      if esc then c :: esWrite s base len fuel (i + 1) esc
      else if c = '\\' then esWrite s base len fuel (i + 1) true
      else if i ≠ 0 && c = '-' && i + 1 < len then
        let b := getR s (base + i - 1)
        let e := getR s (base + i + 1)
        rangeRunes b e ++ esWrite s base len fuel (i + 2) esc
      else c :: esWrite s base len fuel (i + 1) esc
    else []

/-- `expand_set` (src/parse.c): expands the interior of a `[...]` token,
reading `len` runes starting at offset `base` of the pattern.  Returns the
enumeration written before the NUL terminator; the space padding the C code
appends after the terminator is codegen scratch and is not part of the
enumeration. -/
def expand_set (s : List Rune) (base len : Nat) : Except PErr (List Rune) := do
  let esc ← esCount s base len (len + 1) 0 false
  .ok (esWrite s base len (len + 1) 0 esc)

/-- Work items of `rejit_match_len`: either one instruction, or a summation
loop `for (ia = …; ia != stop; ++ia) acc += rejit_match_len(ia);` over a
range of instruction indices, the stop being the `Int` image of a pointer
field. -/
inductive MLTask where
  | one (i : Nat)
  | sum (i : Nat) (stop : Int) (acc : Int)
deriving DecidableEq, Repr

/-- Read an instruction slot; slots past the end of the array read as the
calloc'd zero instruction, i.e. `INULL`. -/
def getI (l : List Instr) (i : Nat) : Instr := l.getD i {}

/-- Update an instruction slot in place. -/
def setI (l : List Instr) (i : Nat) (f : Instr → Instr) : List Instr :=
  l.set i (f (getI l i))

/-- Fuel-indexed engine of `rejit_match_len` (src/match.c).  `none` models
`abort()` (reached on `INULL`/`ISKIP`/`IARG`/`IVARG` and on kinds that fall
out of the switch, such as `IMREP`) as well as fuel exhaustion, which only
happens on pointer structures the terminating C executions never produce. -/
def mlGo (instrs : List Instr) : Nat → MLTask → Option Int
  | 0, _ => none
  | fuel+1, .sum i stop acc =>
    if (i : Int) = stop then some acc
    else
      match mlGo instrs fuel (.one i) with
      | none => none
      | some a => mlGo instrs fuel (.sum (i + 1) stop (acc + a))
  | fuel+1, .one i =>
    let ins := getI instrs i
    match ins.kind with
    | .IWORD => some (ins.sval.length : Int)
    | .ISET | .INSET | .IDOT => some 1
    | .IOPT | .ISTAR | .IMSTAR | .IPLUS | .IMPLUS | .IUSET => some (-1)
    | .IREP =>
      match mlGo instrs fuel (.one (i + 1)) with
      | none => none
      | some a =>
        some (if ins.value = ins.value2 && a ≠ -1 then a * ins.value else -1)
    | .ILAHEAD | .INLAHEAD | .ILBEHIND | .INLBEHIND | .IBEGIN | .IEND => some 0
    | .IGROUP | .ICGROUP => mlGo instrs fuel (.sum (i + 1) ins.value 0)
    | .IOR =>
      match mlGo instrs fuel (.sum (i + 1) ins.value 0) with
      | none => none
      | some a =>
        match mlGo instrs fuel (.sum ins.value.toNat ins.value2 0) with
        | none => none
        | some b => some (if a = b then a else -1)
    | .IBACK => some (-1)
    | .IMREP | .INULL | .ISKIP | .IARG | .IVARG => none

/-- Ample fuel for `mlGo` on any pointer-consistent instruction array. -/
def mlFuel (instrs : List Instr) : Nat := (instrs.length + 2) * (instrs.length + 2)

/-- `rejit_match_len` (src/match.c) on the instruction at index `i`:
`some v` is the C return value, `none` models `abort()`. -/
def rejit_match_len (instrs : List Instr) (i : Nat) : Option Int :=
  mlGo instrs (mlFuel instrs) (.one i)

/-- Pattern flags (`rejit_flags`), restricted to the two bits the parser can
set from an inline cluster. -/
structure Flags where
  dotall : Bool := false
  icase : Bool := false
deriving DecidableEq, Repr

/-- `rejit_parse_result`. -/
structure ParseResult where
  instrs : List Instr
  groups : Int
  maxdepth : Nat
  flags : Flags
deriving DecidableEq, Repr

/-- A pipe record on the parser's pipe stack: the `mid`/`pend` token indices
copied from the `build_suffix_pipe_list` table plus the index of the emitted
`IOR` instruction (`pipe.instr`). -/
structure PPipe where
  mid : Int
  pend : Int
  instr : Nat
deriving DecidableEq, Repr

/-- Parser state threaded through the token walk of `parse` (src/parse.c).
`gst` is the group stack `st` of instruction indices, `pst` the pipe stack,
`lbh` the look-behind depth counter.  The token list is part of the state
because the `(?…` handling mutates token `pos`/`len` fields in place. -/
structure PSt where
  toks : List Token
  instrs : List Instr
  ninstrs : Nat
  gst : List Nat
  pst : List PPipe
  lbh : Nat
  groups : Int
  maxdepth : Nat
  flags : Flags
deriving DecidableEq, Repr

/-- Update one instruction slot of the parser state. -/
def wI (σ : PSt) (i : Nat) (f : Instr → Instr) : PSt :=
  { σ with instrs := setI σ.instrs i f }

/-- `CUR.kind = st.kind - RJ_TSTAR + RJ_ISTAR`: map a suffix token kind to
its quantifier instruction kind. -/
def sufToInstr : TKind → IKind
  | .TSTAR => .ISTAR
  | .TPLUS => .IPLUS
  | .TQ => .IOPT
  | _ => .IREP

/-- `CUR.kind += RJ_IMSTAR - RJ_ISTAR`: upgrade a greedy quantifier to its
minimal variant (never applied to `IOPT`, which the guard excludes). -/
def toMinimal : IKind → IKind
  | .ISTAR => .IMSTAR
  | .IPLUS => .IMPLUS
  | .IREP => .IMREP
  | k => k

/-- Skip `isspace` runes, as `strtol` does before converting. -/
def skipWs (s : List Rune) : Nat → Nat → Nat
  | 0, p => p
  | fuel+1, p =>
    let c := getR s p
    if c = ' ' || c = '\t' || c = '\n' || c = '\r' || c = Char.ofNat 11 || c = Char.ofNat 12
    then skipWs s fuel (p + 1) else p

/-- Accumulate decimal digits; returns the value, the position after the
digits, and whether any digit was consumed. -/
def digitsAcc (s : List Rune) : Nat → Nat → Int → Bool → Int × Nat × Bool
  | 0, p, acc, any => (acc, p, any)
  | fuel+1, p, acc, any =>
    let c := getR s p
    if isDigitRune c then
      digitsAcc s fuel (p + 1) (acc * 10 + ((c.toNat : Int) - 48)) true
    else (acc, p, any)

/-- `strtol(s+p, &ep, 10)`: returns the converted value and the `ep` offset.
When no digits are converted, `strtol` returns 0 and leaves `ep` at the
original start. -/
def rj_strtol (s : List Rune) (p : Nat) : Int × Nat :=
  let p1 := skipWs s (s.length + 1) p
  let (neg, p2) :=
    if getR s p1 = '-' then (true, p1 + 1)
    else if getR s p1 = '+' then (false, p1 + 1)
    else (false, p1)
  let (v, p3, any) := digitsAcc s (s.length + 1) p2 0 false
  if any then ((if neg then -v else v), p3) else (0, p)

/-- The `LBH` macro of `parse`: inside a look-behind (`lbh > 0`), store the
fixed match length of the instruction at `idx` into its `len` field and fail
with `LBVAR` at `errPos` when the length is the variable sentinel `-1`.
An aborting `rejit_match_len` is a `CRASH`. -/
def applyLBH (σ : PSt) (idx errPos : Nat) : Except PErr PSt :=
  if σ.lbh = 0 then .ok σ
  else
    match rejit_match_len σ.instrs idx with
    | none => .error ⟨.CRASH, errPos⟩
    | some v =>
      let σ' := wI σ idx (fun ins => { ins with len := v })
      if v = -1 then .error ⟨.LBVAR, errPos⟩ else .ok σ'

/-- `PUSH(st, &CUR); ++ninstrs;` for the group stack, with the fixed-bound
overflow check of the `PUSH` macro (which sets only the error kind, leaving
the initial position 0). -/
def pushGroup (σ : PSt) : Except PErr PSt :=
  if σ.gst.length + 1 ≥ MAXSTACK then .error ⟨.OVFLOW, 0⟩
  else .ok { σ with gst := σ.ninstrs :: σ.gst, ninstrs := σ.ninstrs + 1 }

/-- Strip `n` leading runes from token `j` (`wt->pos += n; wt->len -= n;`). -/
def stripTok (ts : List Token) (j n : Nat) : List Token :=
  ts.set j { getT ts j with pos := (getT ts j).pos + n, len := (getT ts j).len - n }

/-- Merge the letters of a flag cluster into the result flags: `s` sets
DOTALL, `i` sets ICASE, anything else is silently ignored. -/
def foldFlags (f : Flags) (cs : List Rune) : Flags :=
  cs.foldl
    (fun acc c =>
      if c = 's' then { acc with dotall := true }
      else if c = 'i' then { acc with icase := true }
      else acc) f

/-- The runes of token `t`, read from the pattern. -/
def tokRunes (s : List Rune) (t : Token) : List Rune :=
  (List.range t.len).map (fun k => getR s (t.pos + k))

/-- Drain loop at the end of `parse`:
`while (pst.len) { assert(TOS(pst).end == -1); POP(pst).instr->value2 = &CUR; }`.
A pipe whose `end` was set but never matched trips the assert, which is a
crash of the C program. -/
def drainPipes (instrs : List Instr) (n : Nat) : List PPipe → Except PErr (List Instr)
  | [] => .ok instrs
  | p :: rest =>
    if p.pend ≠ -1 then .error ⟨.CRASH, 0⟩
    else drainPipes (setI instrs p.instr (fun ins => { ins with value2 := (n : Int) })) n rest

/-- One full iteration step plus recursion of the token walk of `parse`
(src/parse.c).  `s` is the pattern, `suffixes`/`pipes` the tables built by
`build_suffix_pipe_list`, `i` the current token index. -/
def parseLoop (s : List Rune) (suffixes : List Int) (pipes : List Pipe) :
    Nat → Nat → PSt → Except PErr PSt
  | 0, _, _ => .error ⟨.CRASH, 0⟩
  | fuel+1, i, σ0 =>
    if i < σ0.toks.length then do
      let t := getT σ0.toks i
      let σ := { σ0 with maxdepth := max σ0.maxdepth σ0.gst.length }
      -- Suffix block: emit the quantifier instruction before its atom.
      let sfx := suffixes.getD i (-1)
      let (σ, lbLater) ←
        if sfx = -1 then pure (σ, false)
        else do
          let stok := getT σ.toks sfx.toNat
          let σ := wI σ σ.ninstrs (fun ins => { ins with kind := sufToInstr stok.kind })
          let (σ, lbLater) ←
            if stok.kind = .TREP then do
              let (v1, ep) := rj_strtol s (stok.pos + 1)
              let σ := wI σ σ.ninstrs (fun ins => { ins with value := v1 })
              if getR s ep = rbraceC then
                pure (wI σ σ.ninstrs (fun ins => { ins with value2 := v1 }), true)
              else if getR s ep ≠ ',' then throw ⟨.INT, ep⟩
              else do
                let (v2, ep2) := rj_strtol s (ep + 1)
                if getR s ep2 ≠ rbraceC then throw ⟨.INT, ep2⟩
                else pure (wI σ σ.ninstrs (fun ins => { ins with value2 := v2 }), true)
            else pure (σ, false)
          let σ :=
            if sfx.toNat + 1 < σ.toks.length
                && (getT σ.toks (sfx.toNat + 1)).kind = .TQ
                && (getI σ.instrs σ.ninstrs).kind ≠ .IOPT then
              wI σ σ.ninstrs (fun ins => { ins with kind := toMinimal ins.kind })
            else σ
          let σ ← if lbLater then pure σ else applyLBH σ σ.ninstrs stok.pos
          pure ({ σ with ninstrs := σ.ninstrs + 1 }, lbLater)
      -- Pipe mid/end patches against the top of the pipe stack.
      let σ ←
        match σ.pst with
        | [] => pure σ
        | p :: rest =>
          if (i : Int) = p.mid then
            pure (wI σ p.instr (fun ins => { ins with value := (σ.ninstrs : Int) }))
          else if (i : Int) = p.pend then do
            let σ ← applyLBH σ p.instr (getT σ.toks p.mid.toNat).pos
            let σ := { σ with pst := rest }
            pure (wI σ p.instr (fun ins => { ins with value2 := (σ.ninstrs : Int) }))
          else pure σ
      -- Emit an OR instruction where an alternation opens.
      let pp := pipes.getD i {}
      let σ ←
        if pp.mid ≠ -1 then
          let σ := wI σ σ.ninstrs (fun ins => { ins with kind := .IOR })
          if σ.pst.length + 1 ≥ MAXSTACK then throw ⟨.OVFLOW, 0⟩
          else pure { σ with pst := ⟨pp.mid, pp.pend, σ.ninstrs⟩ :: σ.pst,
                             ninstrs := σ.ninstrs + 1 }
        else pure σ
      -- Dispatch on the token kind.
      let (σ, nexti) ←
        match t.kind with
        | .TWORD =>
          let σ := wI σ σ.ninstrs (fun ins =>
            { ins with kind := .IWORD, sval := tokRunes s t, len := (t.len : Int) })
          pure ({ σ with ninstrs := σ.ninstrs + 1 }, i + 1)
        | .TCARET =>
          let σ := wI σ σ.ninstrs (fun ins => { ins with kind := .IBEGIN, len := 0 })
          pure ({ σ with ninstrs := σ.ninstrs + 1 }, i + 1)
        | .TDOLLAR =>
          let σ := wI σ σ.ninstrs (fun ins => { ins with kind := .IEND, len := 0 })
          pure ({ σ with ninstrs := σ.ninstrs + 1 }, i + 1)
        | .TDOT =>
          let σ := wI σ σ.ninstrs (fun ins => { ins with kind := .IDOT, len := 1 })
          pure ({ σ with ninstrs := σ.ninstrs + 1 }, i + 1)
        | .TLP => do
          let condC := i + 2 < σ.toks.length
            && (getT σ.toks (i + 1)).kind = .TQ
            && (getT σ.toks (i + 2)).kind = .TWORD
          let w2 := getT σ.toks (i + 2)
          let c0 := getR s w2.pos
          if condC && c0 = ':' then do
            let σ := wI σ σ.ninstrs (fun ins => { ins with kind := .IGROUP })
            let σ := { σ with toks := stripTok σ.toks (i + 2) 1 }
            let σ ← pushGroup σ
            pure (σ, i + 2)
          else if condC && c0 = '=' then do
            let σ := wI σ σ.ninstrs (fun ins => { ins with kind := .ILAHEAD })
            let σ := { σ with toks := stripTok σ.toks (i + 2) 1 }
            let σ ← pushGroup σ
            pure (σ, i + 2)
          else if condC && c0 = '!' then do
            let σ := wI σ σ.ninstrs (fun ins => { ins with kind := .INLAHEAD })
            let σ := { σ with toks := stripTok σ.toks (i + 2) 1 }
            let σ ← pushGroup σ
            pure (σ, i + 2)
          else if condC && c0 = '<' then do
            let c1 := getR s (w2.pos + 1)
            let k ←
              if c1 = '=' then pure IKind.ILBEHIND
              else if c1 = '!' then pure IKind.INLBEHIND
              else throw ⟨.SYNTAX, w2.pos + 1⟩
            let σ := wI σ σ.ninstrs (fun ins => { ins with kind := k })
            let σ := { σ with lbh := σ.lbh + 1, toks := stripTok σ.toks (i + 2) 2 }
            let σ ← pushGroup σ
            pure (σ, i + 1)
          else if condC && i + 3 < σ.toks.length && (getT σ.toks (i + 3)).kind = .TRP then
            pure ({ σ with flags := foldFlags σ.flags (tokRunes s w2) }, i + 4)
          else do
            let σ := wI σ σ.ninstrs (fun ins =>
              { ins with kind := .ICGROUP, value2 := σ.groups })
            let σ := { σ with groups := σ.groups + 1 }
            let σ ← pushGroup σ
            pure (σ, i + 1)
        | .TRP => do
          match σ.gst with
          | [] => throw ⟨.UBOUND, t.pos⟩
          | g :: rest => do
            let σ ← applyLBH σ g t.pos
            let σ :=
              if (getI σ.instrs g).kind = .ILBEHIND then { σ with lbh := σ.lbh - 1 } else σ
            let σ := { σ with gst := rest }
            pure (wI σ g (fun ins => { ins with value := (σ.ninstrs : Int) }), i + 1)
        | .TSET => do
          let neg := getR s t.pos = '^'
          let body ← expand_set s (t.pos + 1) (t.len - 2)
          let σ := wI σ σ.ninstrs (fun ins =>
            { ins with kind := if neg then .INSET else .ISET, sval := body, len := 1 })
          pure ({ σ with ninstrs := σ.ninstrs + 1 }, i + 1)
        | .TMS =>
          let c := getR s (t.pos + 1)
          let σ := wI σ σ.ninstrs (fun ins =>
            { ins with kind := .IUSET, value := ((chToLower c).toNat : Int),
                       value2 := if chIsUpper c then 1 else 0 })
          pure ({ σ with ninstrs := σ.ninstrs + 1 }, i + 1)
        | .TBACK => do
          let d := getR s (t.pos + 1)
          let σ := wI σ σ.ninstrs (fun ins =>
            { ins with kind := .IBACK, value := (d.toNat : Int) - 48 - 1 })
          let σ ← applyLBH σ σ.ninstrs t.pos
          pure ({ σ with ninstrs := σ.ninstrs + 1 }, i + 1)
        | _ => pure (σ, i + 1)
      -- Deferred look-behind check for a REP suffix, after its atom exists.
      let σ ← if lbLater then applyLBH σ (σ.ninstrs - 2) t.pos else pure σ
      parseLoop s suffixes pipes fuel nexti σ
    else do
      -- End of the token walk: terminator, unbalance check, pipe drain.
      let σ := wI σ0 σ0.ninstrs (fun ins => { ins with kind := .INULL })
      let instrs ← drainPipes σ.instrs σ.ninstrs σ.pst
      let σ := { σ with instrs := instrs, pst := [] }
      if σ.gst.isEmpty then .ok σ else .error ⟨.UBOUND, s.length⟩

/-- `rejit_parse` (src/parse.c): tokenize, build the suffix/pipe tables, run
the parser.  The instruction array has `tokens.len + 1` calloc'd slots.
`.ok` is an accepted pattern (error kind `NONE`); `.error` carries the error
kind and rune offset. -/
def rejit_parse (s : List Rune) (flags : Flags) : Except PErr ParseResult := do
  let toks ← rejit_tokenize s
  let bsp ← build_suffix_pipe_list toks
  let σ0 : PSt :=
    { toks := toks, instrs := List.replicate (toks.length + 1) {}, ninstrs := 0,
      gst := [], pst := [], lbh := 0, groups := 0, maxdepth := 0, flags := flags }
  let σ ← parseLoop s bsp.suffixes bsp.pipes (toks.length + 2) 0 σ0
  pure { instrs := σ.instrs, groups := σ.groups, maxdepth := σ.maxdepth, flags := σ.flags }

/-- Convenience wrapper: tokenize then build the structural tables, as
`rejit_parse` does before calling `parse`. -/
def bspOf (s : List Rune) : Except PErr BspOut := do
  let toks ← rejit_tokenize s
  build_suffix_pipe_list toks

/-- Matcher invocation is JIT-compiled native code, out of scope; a matcher
is modelled as a function from a rune string (the suffix of the input at the
current position) to the `rejit_match` result: `-1` for no match, otherwise
the match length. -/
abbrev Matcher := List Rune → Int

/-- The scan loop of `rejit_search`:
`for (; res == -1 && *str; ++str) res = rejit_match(m, str, groups);`.
Returns the result and the final value of the cursor (as an offset), which
the `++str` of the `for` statement has advanced once more after a hit. -/
def searchLoop (f : Matcher) : List Rune → Nat → Int × Nat
  | [], p => (-1, p)
  | c :: rest, p =>
    if c = NUL then (-1, p)
    else
      let r := f (c :: rest)
      if r = -1 then searchLoop f rest (p + 1) else (r, p + 1)

/-- `rejit_search` (src/match.c).  `hasTgt` models whether the `tgt`
out-parameter is non-null; the returned option is the offset written through
it (`*tgt = str+1`), `none` when nothing is written. -/
def rejit_search (f : Matcher) (s : List Rune) (hasTgt : Bool) : Int × Option Nat :=
  let (res, p) := searchLoop f s 0
  (res, if hasTgt && res ≠ -1 then some (p + 1) else none)

/-- The position and length of the first match found by the scan of
`rejit_search`: the first position `p` (before the NUL) at which the matcher
returns something other than `-1`, paired with that return value.  This is
the claim's notion of "finds a match starting at position p with length L". -/
def firstMatchAt (f : Matcher) : List Rune → Nat → Option (Nat × Int)
  | [], _ => none
  | c :: rest, p =>
    if c = NUL then none
    else
      let r := f (c :: rest)
      if r = -1 then firstMatchAt f rest (p + 1) else some (p, r)

/-- The parse result of the pattern `(?<=\d)x`: instruction 0 is the
look-behind whose body spans instructions 1 and 2 (its `value` is 3). -/
def lbUsetResult : ParseResult :=
  ⟨[⟨.ILBEHIND, 3, 0, 0, []⟩, ⟨.IWORD, 0, 0, 0, []⟩, ⟨.IUSET, 100, 0, 0, []⟩,
    ⟨.IWORD, 0, 0, 1, ['x']⟩, {}, {}, {}], 0, 1, {}⟩

/-- The parse result of the pattern `a|(b)c|d`: instruction 0 is an `IOR`
whose `value` field was never patched and is still the calloc'd 0. -/
def orNullResult : ParseResult :=
  ⟨[⟨.IOR, 0, 4, 0, []⟩, ⟨.IWORD, 0, 0, 1, ['a']⟩, ⟨.ICGROUP, 4, 0, 0, []⟩,
    ⟨.IWORD, 0, 0, 1, ['b']⟩, ⟨.IWORD, 0, 0, 1, ['c']⟩, ⟨.IWORD, 0, 0, 1, ['d']⟩,
    {}, {}, {}], 1, 1, {}⟩

/-!  Theorems settling the claims. -/

/-- Claim C1 (code bug evidence): the pattern `(?<=\d)x` is accepted by
`rejit_parse` (error kind NONE), instruction 2 lies strictly inside the
look-behind body (the `ILBEHIND` at index 0 has `value = 3`), it is the
`IUSET` emitted for `\d`, and `rejit_match_len` on it is the variable
sentinel `-1`.  The claim states that every accepted pattern has
`rejit_match_len != -1` on every instruction inside a look-behind, and in
particular that `(?<=\d)x` is only accepted if that instruction has a fixed
length; the code accepts it anyway because the `TMS` dispatch arm of `parse`
never applies the `LBH` length check. -/
theorem C1_lookbehind_uset_escapes_check :
    rejit_parse ("(?<=\\d)x".toList) {} = .ok lbUsetResult
    ∧ (getI lbUsetResult.instrs 0).kind = .ILBEHIND
    ∧ (getI lbUsetResult.instrs 0).value = 3
    ∧ (getI lbUsetResult.instrs 2).kind = .IUSET
    ∧ rejit_match_len lbUsetResult.instrs 2 = some (-1) :=
  ⟨rfl, rfl, rfl, rfl, rfl⟩

/-- Claim C2 (code bug evidence): `rejit_match_len` returns 1 on `ISET`,
`INSET` and `IDOT` as the claim states, but on `IUSET` it returns the
variable sentinel `-1` (src/match.c lists `RJ_IUSET` with the quantifier
cases), while the claim and the spec's table say 1. -/
theorem C2_uset_match_len_is_minus_one :
    rejit_match_len [⟨.IUSET, 100, 0, 0, []⟩] 0 = some (-1)
    ∧ rejit_match_len [⟨.ISET, 0, 0, 1, ['a']⟩] 0 = some 1
    ∧ rejit_match_len [⟨.INSET, 0, 0, 1, ['a']⟩] 0 = some 1
    ∧ rejit_match_len [⟨.IDOT, 0, 0, 1, []⟩] 0 = some 1
    ∧ some (-1 : Int) ≠ some (1 : Int) :=
  ⟨rfl, rfl, rfl, rfl, by decide⟩

/-- Claim C3 (counterexample): an `IGROUP` whose children have match lengths
1 (`IDOT`) and `-1` (`IBACK`) yields `rejit_match_len` 0, not the `-1` the
claim requires whenever a child is variable: the sentinel is added
arithmetically instead of being propagated. -/
theorem C3_counterexample_group_adds_sentinel :
    rejit_match_len
      [⟨.IGROUP, 3, 0, 0, []⟩, ⟨.IDOT, 0, 0, 1, []⟩, ⟨.IBACK, 0, 0, 0, []⟩, {}] 0 = some 0
    ∧ rejit_match_len
      [⟨.IGROUP, 3, 0, 0, []⟩, ⟨.IDOT, 0, 0, 1, []⟩, ⟨.IBACK, 0, 0, 0, []⟩, {}] 2 = some (-1)
    ∧ some (0 : Int) ≠ some (-1 : Int) :=
  ⟨rfl, rfl, by decide⟩

/-- Claim C3 (amended): `rejit_match_len` on `IGROUP`/`ICGROUP` returns the
arithmetic integer sum of the children's results, adding a child's `-1`
sentinel like any other number: children of lengths 2 and `-1` give `2 + -1`. -/
theorem C3_group_len_arithmetic_sum :
    rejit_match_len
      [⟨.ICGROUP, 3, 0, 0, []⟩, ⟨.IWORD, 0, 0, 2, ['a', 'b']⟩, ⟨.IBACK, 0, 0, 0, []⟩, {}] 0
      = some (2 + -1) :=
  rfl

/-- Claim C4 (code bug evidence): in `a|(b)c` the only alternation is the
top-level `|` at token index 1 (pipe slot 0, `mid = 2`), and the `)` at
token index 4 closes the nested group `(b)`, which contains no `|`; yet
`build_suffix_pipe_list` records `pend = 4` for that pipe, because its `TRP`
arm pops the pipe stack with no check that the top pipe belongs to the group
being closed.  The claim says the pipe is left untouched and its `end` stays
at end-of-pattern (`-1`). -/
theorem C4_pipe_end_set_by_unrelated_group :
    bspOf ("a|(b)c".toList) = .ok
      ⟨[-1, -1, -1, -1, -1, -1], [⟨2, 4⟩, {}, {}, {}, {}, {}]⟩
    ∧ Pipe.pend ⟨2, 4⟩ ≠ -1 :=
  ⟨rfl, by decide⟩

/-- Claim C5 (code bug evidence): the pattern `a|(b)c|d` is accepted by
`rejit_parse`, and its `IOR` instruction at index 0 has `value = 0`: the
mis-attributed `pend` from `build_suffix_pipe_list` (see C4) pops the pipe
before its `mid` is ever reached, so `value` keeps its calloc'd 0 and does
not point strictly after the `OR`, contradicting the claimed invariant. -/
theorem C5_or_value_not_after_or :
    rejit_parse ("a|(b)c|d".toList) {} = .ok orNullResult
    ∧ (getI orNullResult.instrs 0).kind = .IOR
    ∧ (getI orNullResult.instrs 0).value = 0
    ∧ ¬ (0 : Int) < (getI orNullResult.instrs 0).value :=
  ⟨rfl, rfl, rfl, by decide⟩

/-- Helper for claim C6: if the scan finds its first hit at position `p`
with result `L`, the loop of `rejit_search` ends with result `L` and cursor
`p + 1` (the `for` statement increments once more after the hit), and `L` is
not `-1`. -/
theorem searchLoop_of_firstMatchAt (f : Matcher) :
    ∀ (s : List Rune) (q p : Nat) (L : Int),
      firstMatchAt f s q = some (p, L) → searchLoop f s q = (L, p + 1) ∧ L ≠ -1 := by
  intro s
  induction s with
  | nil =>
    intro q p L h
    simp [firstMatchAt] at h
  | cons c rest ih =>
    intro q p L h
    by_cases hnul : c = NUL
    · simp [firstMatchAt, hnul] at h
    · by_cases hr : f (c :: rest) = -1
      · have h' : firstMatchAt f rest (q + 1) = some (p, L) := by
          simpa [firstMatchAt, hnul, hr] using h
        have hrec := ih (q + 1) p L h'
        refine ⟨?_, hrec.2⟩
        simpa [searchLoop, hnul, hr] using hrec.1
      · have h' : q = p ∧ f (c :: rest) = L := by
          simpa [firstMatchAt, hnul, hr] using h
        obtain ⟨hq, hL⟩ := h'
        subst hq
        subst hL
        exact ⟨by simp [searchLoop, hnul, hr], hr⟩

/-- Claim C6 (counterexample): with the constant matcher that reports a
length-1 match everywhere, `rejit_search` on `"ab"` finds its first match at
position 0 with length 1, returns 1, but writes 2 through the out-parameter,
not the claimed one-past-match-end position `0 + 1`. -/
theorem C6_counterexample_tgt_not_match_end :
    rejit_search (fun _ => (1 : Int)) ("ab".toList) true = (1, some 2)
    ∧ firstMatchAt (fun _ => (1 : Int)) ("ab".toList) 0 = some (0, 1)
    ∧ (0 + 1 : Nat) ≠ 2 :=
  ⟨rfl, rfl, by decide⟩

/-- Claim C6 (amended): for every matcher and input, when `rejit_search`
finds its first match at position `p` with length `L` and the out-parameter
is non-null, it returns `L` and writes `p + 2` — two runes past the match
start, independent of `L` — because the `for` statement's `++str` also runs
after the successful iteration and the code then writes `str + 1`. -/
theorem C6_search_writes_start_plus_two (f : Matcher) (s : List Rune) (p : Nat) (L : Int)
    (h : firstMatchAt f s 0 = some (p, L)) :
    rejit_search f s true = (L, some (p + 2)) := by
  have hm := searchLoop_of_firstMatchAt f s 0 p L h
  simp [rejit_search, hm.1, hm.2]

/-- Witness for the amended claim C6 at the constant length-5 matcher on the
input `"a"`: the first match is at position 0 with length 5, and search
returns 5 writing position 2. -/
theorem C6_search_writes_start_plus_two_witness :
    rejit_search (fun _ => (5 : Int)) ("a".toList) true = (5, some 2) :=
  C6_search_writes_start_plus_two (fun _ => (5 : Int)) ("a".toList) 0 5 rfl

/-- Claim C7 (counterexample): the pattern `(?x)` — an unknown `(?…)` prefix
according to the claim — is not rejected with SYNTAX: `parse` treats any
`(?word)` cluster as a flag cluster, silently ignoring letters other than
`s` and `i`, and accepts the pattern with error kind NONE, empty instruction
stream and unchanged flags. -/
theorem C7_counterexample_unknown_flag_accepted :
    rejit_parse ("(?x)".toList) {} = .ok ⟨[{}, {}, {}, {}, {}], 0, 0, {}⟩ :=
  rfl

/-- Claim C7 (amended): the SYNTAX error for an unknown `(?…)` prefix is
raised only in the look-behind arm, when `(?<` is followed by a rune other
than `=` or `!`: `(?<x)` fails with SYNTAX at rune offset 3. -/
theorem C7_unknown_lookbehind_sigil_syntax :
    rejit_parse ("(?<x)".toList) {} = .error ⟨.SYNTAX, 3⟩ :=
  rfl

/-- Claim C8 (code bug evidence): expanding the class body `\^a-c` (pattern
`[\^a-c]`, body at offset 1, length 5).  The claim says the backslash
escapes exactly the next rune, after which processing returns to normal, so
the result should be `^`, `a`, `b`, `c`.  In the code the `escaped` flag is
never reset and even leaks from the sizing pass into the writing pass, so
every rune after the backslash — and the backslash itself — is emitted
literally and the range is not expanded. -/
theorem C8_escape_sticky_no_range :
    expand_set ("[\\^a-c]".toList) 1 5 = .ok ['\\', '^', 'a', '-', 'c']
    ∧ rejit_parse ("[\\^a-c]".toList) {} = .ok
        ⟨[⟨.ISET, 0, 0, 1, ['\\', '^', 'a', '-', 'c']⟩, {}], 0, 0, {}⟩
    ∧ (['\\', '^', 'a', '-', 'c'] : List Rune) ≠ ['^', 'a', 'b', 'c'] :=
  ⟨rfl, rfl, by decide⟩

/-- Claim C9: parsing `a+b` succeeds and produces exactly the instruction
sequence `IPLUS`, `IWORD "a"`, `IWORD "b"`, `INULL` — the quantifier
instruction emitted before its atom, terminated by `INULL` — with
`groups = 0` and `maxdepth = 0`. -/
theorem C9_plus_lowering :
    rejit_parse ("a+b".toList) {} = .ok
      ⟨[⟨.IPLUS, 0, 0, 0, []⟩, ⟨.IWORD, 0, 0, 1, ['a']⟩, ⟨.IWORD, 0, 0, 1, ['b']⟩,
        ⟨.INULL, 0, 0, 0, []⟩], 0, 0, {}⟩ :=
  rfl

/-- Claim C10: parsing the empty pattern succeeds with error kind NONE and
yields exactly one instruction, the `INULL` terminator, with `groups = 0`
and `maxdepth = 0`. -/
theorem C10_empty_pattern :
    rejit_parse ([] : List Rune) {} = .ok ⟨[⟨.INULL, 0, 0, 0, []⟩], 0, 0, {}⟩ :=
  rfl

end Rejit
